import Mathlib

/-!
# Verification of the Flask employee CRUD + auth service (`src/app.py`)

Shallow embedding of the request-handling logic of `app.py`:

* JSON payloads are association lists of `String × JsonVal` (modelling the
  Python dict produced by `request.get_json()`; JSON object keys are unique).
* Python truthiness (`not data.get(f)`) is modelled by `pyFalsy`.
* The SQLAlchemy tables become `EmployeeStore` / `UserStore`: a list of rows
  plus an autoincrement counter for the next primary key.
* Password hashing (`werkzeug.security`) and JWT serialization are external
  collaborators; they are abstracted as a `HashOracle` and a pair of
  `ser`/`deser` functions, while the logic of `app.py` around them
  (`register`, `login`, `require_auth`) is embedded faithfully.
* Every handler is a pure function from store state and request data to a
  `Resp`onse and a new store state.
-/

/-- A JSON value as received from `request.get_json()`.  JSON numbers are
modelled by `Int` (enough to express the truthiness of `0`). -/
inductive JsonVal where
  | jstr (s : String)
  | jnum (n : Int)
  | jbool (b : Bool)
  | jnull
deriving DecidableEq, Repr

/-- A JSON object / Python dict: association list with unique keys. -/
abbrev Payload := List (String × JsonVal)

/-- Lookup `data.get(f)`: the value bound to key `f`, if present. -/
def dataGet (data : Payload) (f : String) : Option JsonVal :=
  (data.find? (fun p => p.1 == f)).map (·.2)

/-- Python truthiness of a JSON value: `""`, `0`, `False`, `None` are falsy. -/
def pyTruthy : JsonVal → Bool
  | .jstr s => !(s == "")
  | .jnum n => !(n == 0)
  | .jbool b => b
  | .jnull => false

/-- Models `not data.get(f)`: true when the key is absent or its value is falsy. -/
def pyFalsy (o : Option JsonVal) : Bool :=
  match o with
  | none => true
  | some v => !pyTruthy v

/-- Models `isinstance(v, str)`. -/
def isStr : JsonVal → Bool
  | .jstr _ => true
  | _ => false

/-- Extract the string of a JSON string value. -/
def strOf? : JsonVal → Option String
  | .jstr s => some s
  | _ => none

/-- Models `isinstance(data[f], str)` for a field looked up in the payload
(`false` when absent; only used under a presence guard). -/
def optIsStr (o : Option JsonVal) : Bool :=
  match o with
  | some v => isStr v
  | none => false

def required_fields : List String := ["name", "surname", "position"]

def employee_fields : List String := ["name", "surname", "position", "city"]

/-- Structured validation errors, each carrying the offending field list
exactly as the JSON error bodies of `app.py` do
(`missing_fields` / `wrong_type_fields` / `empty_fields`). -/
inductive VError where
  | missingRequired (missing_fields : List String)
  | invalidFieldTypes (wrong_type_fields : List String)
  | emptyRequired (empty_fields : List String)
deriving DecidableEq, Repr

/-- Embeds `validate_employee_data` (app.py lines 521-543): required fields must be
present and truthy, then every present employee field must be a string. -/
def validate_employee_data (data : Payload) : Option VError :=
  let missing := required_fields.filter (fun f => pyFalsy (dataGet data f))
  if missing = [] then
    let wrong_types := employee_fields.filter
      (fun f => (dataGet data f).isSome && !optIsStr (dataGet data f))
    if wrong_types = [] then none
    else some (.invalidFieldTypes wrong_types)
  else some (.missingRequired missing)

/-- Embeds `validate_employee_update_data` (app.py lines 414-435): first the type
check, iterating over the payload's own keys; then required fields that are
present must be truthy. -/
def validate_employee_update_data (data : Payload) : Option VError :=
  let wrong_types := (data.map Prod.fst).filter
    (fun f => employee_fields.contains f && !optIsStr (dataGet data f))
  if wrong_types = [] then
    let empty_required := required_fields.filter
      (fun f => (data.map Prod.fst).contains f && pyFalsy (dataGet data f))
    if empty_required = [] then none
    else some (.emptyRequired empty_required)
  else some (.invalidFieldTypes wrong_types)

/-- A row of the `Employee` table (app.py lines 51-56).  Every column is
declared `nullable=False`; `city` is `Option String` because the create
handler nevertheless passes `data.get('city')`, which can be `None` —
the NOT NULL constraint is enforced at commit time (see `create_employee`). -/
structure Employee where
  id : Nat
  name : String
  surname : String
  position : String
  city : Option String
deriving DecidableEq, Repr

/-- The `Employee` table plus the autoincrement counter for the next
primary key. -/
structure EmployeeStore where
  rows : List Employee
  nextId : Nat
deriving DecidableEq, Repr

/-- A row of the `User` table (app.py lines 23-26).  The username is stored
as the JSON value submitted at registration; only the salted hash of the
password is stored. -/
structure UserRec where
  id : Nat
  username : JsonVal
  password_hash : String
deriving DecidableEq, Repr

/-- The `User` table plus the autoincrement counter. -/
structure UserStore where
  rows : List UserRec
  nextId : Nat
deriving DecidableEq, Repr

/-- Abstraction of `werkzeug.security`: `gen salt pw` models
`generate_password_hash(pw)` (the salt drawn for this call is made explicit),
`chk h pw` models `check_password_hash(h, pw)` (the candidate may be `None`,
hence `Option JsonVal`). -/
structure HashOracle where
  gen : Nat → JsonVal → String
  chk : String → Option JsonVal → Bool

/-- A decoded JWT as produced by `jwt.encode({"user_id": ..., "exp": ...},
SECRET_KEY)`: the claims plus the key the token was signed with.  Time is in
seconds since the epoch. -/
structure Token where
  user_id : Nat
  exp : Nat
  key : String
deriving DecidableEq, Repr

inductive JwtError where
  | expired
  | invalid
deriving DecidableEq, Repr

/-- Models `jwt.decode(token, key, algorithms=["HS256"])` at time `now`: the
signature is verified first (mismatched key ⇒ `InvalidTokenError`), then the
`exp` claim (`exp ≤ now` ⇒ `ExpiredSignatureError`). -/
def jwtDecode (tok : Token) (key : String) (now : Nat) : Except JwtError Nat :=
  if tok.key ≠ key then .error .invalid
  else if tok.exp ≤ now then .error .expired
  else .ok tok.user_id

/-- All response shapes produced by the handlers of `app.py`, with the JSON
body's distinguishing content. -/
inductive Resp where
  | createdEmp (id : Nat)
  | validationError (e : VError)
  | notFoundEmp (id : Nat)
  | notFoundName (name : String)
  | deletedOk
  | updatedOk (id : Nat)
  | empRecord (e : Employee)
  | empList (es : List Employee)
  | serverError
  | registered
  | authBadRequest (msg : String)
  | loginToken (t : Token)
  | loginUnauthorized (msg : String)
deriving DecidableEq, Repr

/-- The HTTP status code each response is returned with in `app.py`. -/
def Resp.status : Resp → Nat
  | .createdEmp _ => 201
  | .validationError _ => 400
  | .notFoundEmp _ => 404
  | .notFoundName _ => 404
  | .deletedOk => 200
  | .updatedOk _ => 200
  | .empRecord _ => 200
  | .empList _ => 200
  | .serverError => 500
  | .registered => 201
  | .authBadRequest _ => 400
  | .loginToken _ => 200
  | .loginUnauthorized _ => 401

/-- Reads `data[f]` on a field known (after validation) to hold a string. -/
def strField (data : Payload) (f : String) : String :=
  ((dataGet data f).bind strOf?).getD ""

/-- Embeds `create_employee` (app.py lines 228-257): inline required-field check,
then `validate_employee_data`, then construction of the row with
`city=data.get('city')` and `db.session.commit()`.  The `city` column is
declared `nullable=False`, so a `None` city makes the INSERT fail with
`IntegrityError` (an unhandled 500) and the transaction is rolled back. -/
def create_employee (st : EmployeeStore) (data : Payload) : Resp × EmployeeStore :=
  let missing := required_fields.filter (fun f => pyFalsy (dataGet data f))
  if missing = [] then
    match validate_employee_data data with
    | some e => (.validationError e, st)
    | none =>
      let new_employee : Employee :=
        { id := st.nextId
          name := strField data "name"
          surname := strField data "surname"
          position := strField data "position"
          city := (dataGet data "city").bind strOf? }
      if new_employee.city = none then (.serverError, st)
      else (.createdEmp new_employee.id,
            { rows := st.rows ++ [new_employee], nextId := st.nextId + 1 })
  else (.validationError (.missingRequired missing), st)

/-- Models `Employee.query.get(id)`: primary-key lookup. -/
def findEmp (st : EmployeeStore) (id : Nat) : Option Employee :=
  st.rows.find? (fun e => e.id == id)

/-- Embeds `get_employee` (app.py lines 399-410). -/
def get_employee (st : EmployeeStore) (id : Nat) : Resp :=
  match findEmp st id with
  | none => .notFoundEmp id
  | some e => .empRecord e

/-- Embeds `get_employee_by_name` (app.py lines 347-358): first exact match. -/
def get_employee_by_name (st : EmployeeStore) (name : String) : Resp :=
  match st.rows.find? (fun e => e.name == name) with
  | none => .notFoundName name
  | some e => .empRecord e

/-- Embeds `get_all_employees` (app.py lines 298-306). -/
def get_all_employees (st : EmployeeStore) : Resp :=
  .empList st.rows

/-- Embeds `delete_employee` (app.py lines 269-273): `get_or_404`, then delete and
commit. -/
def delete_employee (st : EmployeeStore) (id : Nat) : Resp × EmployeeStore :=
  match findEmp st id with
  | none => (.notFoundEmp id, st)
  | some _ =>
    (.deletedOk, { st with rows := st.rows.filter (fun e => !(e.id == id)) })

/-- The update loop of `update_employee` (app.py lines 510-512) unrolled over
the literal field list `['name', 'surname', 'position', 'city']`:
`setattr(employee, field, data[field])` for each field present in the
payload.  Validation has already guaranteed each present value is a string. -/
def applyUpdate (e : Employee) (data : Payload) : Employee :=
  let e1 := match dataGet data "name" with
    | some v => { e with name := (strOf? v).getD e.name }
    | none => e
  let e2 := match dataGet data "surname" with
    | some v => { e1 with surname := (strOf? v).getD e1.surname }
    | none => e1
  let e3 := match dataGet data "position" with
    | some v => { e2 with position := (strOf? v).getD e2.position }
    | none => e2
  match dataGet data "city" with
  | some v => { e3 with city := strOf? v }
  | none => e3

/-- Embeds `update_employee` (app.py lines 498-519): 404 if the id is absent, then
`validate_employee_update_data`, then only the provided fields are written
and the row is committed. -/
def update_employee (st : EmployeeStore) (id : Nat) (data : Payload) :
    Resp × EmployeeStore :=
  match findEmp st id with
  | none => (.notFoundEmp id, st)
  | some _ =>
    match validate_employee_update_data data with
    | some e => (.validationError e, st)
    | none =>
      (.updatedOk id,
       { st with
          rows := st.rows.map (fun e => if e.id == id then applyUpdate e data else e) })

/-- Embeds `register` (app.py lines 99-111): 400 when username or password is
absent/falsy; 400 `"Username already exists"` when
`User.query.filter_by(username=...)` finds a row; otherwise the user is
stored with `password_hash = generate_password_hash(password)`. -/
def register (H : HashOracle) (salt : Nat) (st : UserStore) (data : Payload) :
    Resp × UserStore :=
  if pyFalsy (dataGet data "username") || pyFalsy (dataGet data "password") then
    (.authBadRequest "Username and password are required", st)
  else
    let uname := (dataGet data "username").getD .jnull
    if st.rows.any (fun u => decide (u.username = uname)) then
      (.authBadRequest "Username already exists", st)
    else
      let user : UserRec :=
        { id := st.nextId
          username := uname
          password_hash := H.gen salt ((dataGet data "password").getD .jnull) }
      (.registered, { rows := st.rows ++ [user], nextId := st.nextId + 1 })

/-- Models `User.query.filter_by(username=data.get("username")).first()`: the
username column is NOT NULL, so a missing payload key (`None`) matches no
row. -/
def userLookup (st : UserStore) (data : Payload) : Option UserRec :=
  match dataGet data "username" with
  | none => none
  | some v => st.rows.find? (fun u => decide (u.username = v))

/-- Embeds `login` (app.py lines 149-160): one uniform `"Invalid credentials"` 401
for both a missing user and a failed password check; on success a token
with the user's id and `exp = now + 2 hours`, signed with `key`. -/
def login (H : HashOracle) (key : String) (now : Nat) (st : UserStore)
    (data : Payload) : Resp :=
  match userLookup st data with
  | some user =>
    if H.chk user.password_hash (dataGet data "password") then
      .loginToken { user_id := user.id, exp := now + 2 * 3600, key := key }
    else .loginUnauthorized "Invalid credentials"
  | none => .loginUnauthorized "Invalid credentials"

/-- Holds when `pre.toList` is an initial segment of `s.toList`: models
`str.startswith`. -/
def listIsInitial : List Char → List Char → Bool
  | [], _ => true
  | _ :: _, [] => false
  | a :: as, b :: bs => a == b && listIsInitial as bs

/-- Models `s.startswith(pre)`. -/
def strStartsWith (s pre : String) : Bool :=
  listIsInitial pre.toList s.toList

/-- Python `str.split(sep)` for a one-character separator, on char lists:
keeps empty chunks, exactly like `"a  b".split(" ") == ["a", "", "b"]`. -/
def pySplitChars (sep : Char) : List Char → List (List Char)
  | [] => [[]]
  | c :: cs =>
    let r := pySplitChars sep cs
    if c == sep then [] :: r
    else
      match r with
      | [] => [[c]]
      | h :: t => (c :: h) :: t

/-- Models `s.split(sep)` for a one-character separator. -/
def pySplit (s : String) (sep : Char) : List String :=
  (pySplitChars sep s.toList).map (fun l => String.mk l)

/-- Outcome of the `require_auth` decorator: either the wrapped handler runs
with `request.user_id` set, or a JSON error with its status is returned. -/
inductive AuthResult where
  | proceed (user_id : Nat)
  | authErr (status : Nat) (msg : String)
deriving DecidableEq, Repr

/-- Embeds the *wrapper body* of `require_auth` (app.py lines 162-177) — the
per-request logic the decorator intends: the `Authorization` header (`""`
when absent) must start with `"Bearer "`; the second chunk of
`auth.split(" ")` is deserialized (`deser`, the inverse of `jwt.encode`'s
serialization) and decoded; `ExpiredSignatureError` and `InvalidTokenError`
get distinct messages but the same 401 status.  This body is only reachable
if building the wrapper succeeds; in the source it does not — see
`apply_require_auth`. -/
def require_auth (deser : String → Token) (key : String) (now : Nat)
    (auth : String) : AuthResult :=
  if strStartsWith auth "Bearer " then
    let token := deser ((pySplit auth ' ').getD 1 "")
    match jwtDecode token key now with
    | .ok uid => .proceed uid
    | .error .expired => .authErr 401 "Token expired"
    | .error .invalid => .authErr 401 "Invalid token"
  else .authErr 401 "Missing or invalid token"

/-- A fault raised by the Python interpreter itself, outside any handler. -/
inductive PyFault where
  | nameError (name : String)
deriving DecidableEq, Repr

/-- The names bound in the module namespace of `app.py` when
`@require_auth` is first applied (app.py line 181, on `create_employee`):
the imports of lines 1-8 and 21 (`Flask, request, jsonify`; `SQLAlchemy`;
`Swagger, swag_from`; `os`; `load_dotenv`; `jwt`; `datetime`;
`generate_password_hash, check_password_hash`) and the top-level bindings
`SECRET_KEY`, `app`, `db`, `swagger`, `User`, `seed_users`, `Employee`,
`register`, `login`, `require_auth`.  No import binds `wraps`. -/
def app_module_globals : List String :=
  ["Flask", "request", "jsonify", "SQLAlchemy", "Swagger", "swag_from",
   "os", "load_dotenv", "jwt", "datetime", "generate_password_hash",
   "check_password_hash", "SECRET_KEY", "app", "db", "swagger", "User",
   "seed_users", "Employee", "register", "login", "require_auth"]

/-- Models applying the decorator `require_auth(f)` (app.py line 181): the
body of `require_auth` evaluates `@wraps(f)` (app.py line 163) while the
wrapper is being built, which resolves the global name `wraps` in the module
namespace; an unresolved name raises `NameError` at import time, before any
request can be served.  On success the per-request wrapper
(`require_auth deser key` applied to the request's time and header) is
produced. -/
def apply_require_auth (globalNames : List String) (deser : String → Token)
    (key : String) : Except PyFault (Nat → String → AuthResult) :=
  if globalNames.contains "wraps" then
    .ok (fun now auth => require_auth deser key now auth)
  else .error (.nameError "wraps")

/-- The whole application state: both tables. -/
structure AppState where
  emp : EmployeeStore
  users : UserStore
deriving DecidableEq, Repr

/-- One request to the service (route + body).  `registerU` carries the salt
werkzeug draws for this call; `loginU` carries the current time. -/
inductive Req where
  | createE (data : Payload)
  | updateE (id : Nat) (data : Payload)
  | deleteE (id : Nat)
  | getE (id : Nat)
  | getByName (name : String)
  | listE
  | registerU (salt : Nat) (data : Payload)
  | loginU (now : Nat) (data : Payload)
deriving Repr

/-- Dispatch of one request to its handler, threading the store state. -/
def step (H : HashOracle) (key : String) (st : AppState) (r : Req) :
    Resp × AppState :=
  match r with
  | .createE data =>
    let (resp, e) := create_employee st.emp data
    (resp, { st with emp := e })
  | .updateE id data =>
    let (resp, e) := update_employee st.emp id data
    (resp, { st with emp := e })
  | .deleteE id =>
    let (resp, e) := delete_employee st.emp id
    (resp, { st with emp := e })
  | .getE id => (get_employee st.emp id, st)
  | .getByName n => (get_employee_by_name st.emp n, st)
  | .listE => (get_all_employees st.emp, st)
  | .registerU salt data =>
    let (resp, u) := register H salt st.users data
    (resp, { st with users := u })
  | .loginU now data => (login H key now st.users data, st)

/-- Run a sequence of requests, keeping only the final state. -/
def runReqs (H : HashOracle) (key : String) (st : AppState) (rs : List Req) :
    AppState :=
  rs.foldl (fun s r => (step H key s r).2) st

/-! ## Concrete fixtures used to instantiate the theorems -/

/-- The spec's example creation payload, with `city` omitted. -/
def annP : Payload :=
  [("name", .jstr "Ann"), ("surname", .jstr "Lee"), ("position", .jstr "Engineer")]

/-- The same payload with a `city`. -/
def annCityP : Payload := annP ++ [("city", .jstr "Kazan")]

/-- Creation payload whose `position` is the number `0` (falsy). -/
def posZeroP : Payload :=
  [("name", .jstr "Ann"), ("surname", .jstr "Lee"), ("position", .jnum 0)]

/-- Creation payload whose `position` is the number `5` (truthy). -/
def posFiveP : Payload :=
  [("name", .jstr "Ann"), ("surname", .jstr "Lee"), ("position", .jnum 5)]

/-- Update payload with an empty required field and a wrong-typed field. -/
def emptyNameBadCityP : Payload := [("name", .jstr ""), ("city", .jnum 5)]

/-- Update payload setting only `city`. -/
def cityXP : Payload := [("city", .jstr "X")]

/-- An empty employee table. -/
def st0 : EmployeeStore := { rows := [], nextId := 1 }

/-- One stored employee. -/
def empW : Employee :=
  { id := 1, name := "Ann", surname := "Lee", position := "Engineer", city := some "Kazan" }

/-- An employee table holding `empW`. -/
def stW : EmployeeStore := { rows := [empW], nextId := 2 }

/-- A hash oracle whose password check always fails. -/
def hashNo : HashOracle := { gen := fun _ _ => "h", chk := fun _ _ => false }

/-- A hash oracle whose password check always succeeds. -/
def hashYes : HashOracle := { gen := fun _ _ => "h", chk := fun _ _ => true }

/-- A user table holding one user `admin`. -/
def ustW : UserStore :=
  { rows := [{ id := 1, username := .jstr "admin", password_hash := "h" }], nextId := 2 }

/-- Login body naming a user that does not exist. -/
def ghostD : Payload := [("username", .jstr "ghost"), ("password", .jstr "x")]

/-- Login body naming the stored user. -/
def adminD : Payload := [("username", .jstr "admin"), ("password", .jstr "x")]

/-- The token that `login hashYes "k" 0 ustW adminD` issues. -/
def tokW : Token := { user_id := 1, exp := 2 * 3600, key := "k" }

/-- A token signed with a different key. -/
def tokB : Token := { user_id := 1, exp := 2 * 3600, key := "bad" }

/-- Deserializer returning `tokW` for every string. -/
def deserW : String → Token := fun _ => tokW

/-- Deserializer returning `tokB` for every string. -/
def deserB : String → Token := fun _ => tokB

/-- Application state with one employee and no users. -/
def appW : AppState := { emp := stW, users := { rows := [], nextId := 1 } }

/-- Empty application state. -/
def app0 : AppState := { emp := st0, users := { rows := [], nextId := 1 } }

/-- A request sequence exercising create, update and delete after a delete. -/
def opsW : List Req :=
  [.createE annCityP, .updateE 2 cityXP, .deleteE 5, .registerU 0 adminD, .listE]

/-! ## Helper lemmas -/

/-- The function `applyUpdate` never touches the primary key. -/
theorem applyUpdate_id (e : Employee) (data : Payload) :
    (applyUpdate e data).id = e.id := by
  unfold applyUpdate
  cases dataGet data "name" <;> cases dataGet data "surname" <;>
    cases dataGet data "position" <;> cases dataGet data "city" <;> rfl

/-- The per-row function of `update_employee` never touches the primary key. -/
theorem updRow_id (id : Nat) (data : Payload) (e : Employee) :
    (if e.id == id then applyUpdate e data else e).id = e.id := by
  split
  · exact applyUpdate_id e data
  · rfl

/-- The lookup `find?` commutes with a map that preserves the predicate. -/
theorem find?_map_pres {α : Type} (p : α → Bool) (g : α → α)
    (hp : ∀ a, p (g a) = p a) :
    ∀ (l : List α) (a : α), l.find? p = some a → (l.map g).find? p = some (g a) := by
  intro l
  induction l with
  | nil => intro a h; simp at h
  | cons x xs ih =>
    intro a h
    by_cases hx : p x = true
    · rw [List.find?_cons_of_pos _ hx] at h
      rw [List.map_cons, List.find?_cons_of_pos _ (by rw [hp]; exact hx)]
      cases h
      rfl
    · rw [List.find?_cons_of_neg _ hx] at h
      rw [List.map_cons, List.find?_cons_of_neg _ (by rw [hp]; exact hx)]
      exact ih a h

/-- A key whose lookup succeeds is one of the payload's keys. -/
theorem mem_keys_of_dataGet_some (data : Payload) (f : String) (v : JsonVal)
    (h : dataGet data f = some v) : f ∈ data.map Prod.fst := by
  unfold dataGet at h
  cases hf : data.find? (fun p => p.1 == f) with
  | none => rw [hf] at h; simp at h
  | some p =>
    have hmem := List.mem_of_find?_eq_some hf
    have hpf := List.find?_some hf
    have : p.1 = f := by simpa using hpf
    subst this
    exact List.mem_map_of_mem Prod.fst hmem

/-- A key of the payload always looks up to some value. -/
theorem dataGet_isSome_of_mem_keys (data : Payload) (f : String)
    (h : f ∈ data.map Prod.fst) : ∃ v, dataGet data f = some v := by
  unfold dataGet
  cases hf : data.find? (fun p => p.1 == f) with
  | none =>
    rw [List.find?_eq_none] at hf
    obtain ⟨p, hp, rfl⟩ := List.mem_map.mp h
    exact absurd (by simp : (fun q : String × JsonVal => q.1 == p.1) p = true) (by simpa using hf p hp)
  | some p => exact ⟨p.2, rfl⟩

/-! ## Claim theorems -/

/-- Claim C1: The claim says a validated creation payload is stored and
re-fetching returns the submitted fields, with `city` null when omitted.
The code contradicts this (and its own swagger documentation, which marks
`city` optional and nullable): the `Employee.city` column is declared
`nullable=False`, so the spec's own example payload — valid, `city`
omitted — fails the INSERT with `IntegrityError` (HTTP 500) and nothing is
stored. -/
theorem create_without_city_raises_integrity_error :
    create_employee st0 annP = (.serverError, st0) ∧
    validate_employee_data annP = none ∧
    Resp.status (create_employee st0 annP).1 = 500 := by
  refine ⟨by decide, by decide, by decide⟩

/-- Claim C9: An employee's `id` never changes: `update_employee` with any
payload preserves the `id` of every stored record (only
`name`/`surname`/`position`/`city` are written by `applyUpdate`, which
itself preserves `id`). -/
theorem update_preserves_record_ids (st : EmployeeStore) (id : Nat)
    (data : Payload) (e : Employee) :
    ((update_employee st id data).2.rows.map (fun r => r.id)
        = st.rows.map (fun r => r.id)) ∧
    (applyUpdate e data).id = e.id := by
  constructor
  · unfold update_employee
    cases hf : findEmp st id with
    | none => rfl
    | some e0 =>
      cases hv : validate_employee_update_data data with
      | some err => rfl
      | none =>
        simp only [List.map_map]
        apply List.map_congr_left
        intro a _
        simp only [Function.comp_apply]
        exact updRow_id id data a
  · exact applyUpdate_id e data

/-- Claim C3: For an existing employee id and a payload passing update
validation, `update_employee` succeeds and writes exactly the fields present
in the payload: every omitted field keeps its old value and every present
field takes the submitted string. -/
theorem update_applies_exactly_present_fields (st : EmployeeStore) (id : Nat)
    (data : Payload) (emp : Employee)
    (hfind : findEmp st id = some emp)
    (hval : validate_employee_update_data data = none) :
    (update_employee st id data).1 = .updatedOk id ∧
    get_employee (update_employee st id data).2 id = .empRecord (applyUpdate emp data) ∧
    (dataGet data "name" = none → (applyUpdate emp data).name = emp.name) ∧
    (dataGet data "surname" = none → (applyUpdate emp data).surname = emp.surname) ∧
    (dataGet data "position" = none → (applyUpdate emp data).position = emp.position) ∧
    (dataGet data "city" = none → (applyUpdate emp data).city = emp.city) ∧
    (∀ s, dataGet data "name" = some (.jstr s) → (applyUpdate emp data).name = s) ∧
    (∀ s, dataGet data "surname" = some (.jstr s) → (applyUpdate emp data).surname = s) ∧
    (∀ s, dataGet data "position" = some (.jstr s) → (applyUpdate emp data).position = s) ∧
    (∀ s, dataGet data "city" = some (.jstr s) → (applyUpdate emp data).city = some s) := by
  have hpid : (emp.id == id) = true := by
    have := List.find?_some hfind
    simpa using this
  have hfind' : st.rows.find? (fun e => e.id == id) = some emp := hfind
  have hp : ∀ a : Employee,
      ((if a.id == id then applyUpdate a data else a).id == id) = (a.id == id) :=
    fun a => by rw [updRow_id id data a]
  have hmap := find?_map_pres (fun e => e.id == id)
      (fun e => if e.id == id then applyUpdate e data else e) hp st.rows emp hfind'
  have hupd : update_employee st id data =
      (.updatedOk id,
        { st with
           rows := st.rows.map (fun e => if e.id == id then applyUpdate e data else e) }) := by
    simp [update_employee, hfind, hval]
  refine ⟨?_, ?_, ?_, ?_, ?_, ?_, ?_, ?_, ?_, ?_⟩
  · rw [hupd]
  · rw [hupd]
    simp only [get_employee, findEmp]
    rw [hmap]
    simp [hpid]
  · intro hn
    cases hs : dataGet data "surname" <;> cases hp : dataGet data "position" <;>
      cases hc : dataGet data "city" <;> simp [applyUpdate, hn, hs, hp, hc]
  · intro hs
    cases hn : dataGet data "name" <;> cases hp : dataGet data "position" <;>
      cases hc : dataGet data "city" <;> simp [applyUpdate, hn, hs, hp, hc]
  · intro hp
    cases hn : dataGet data "name" <;> cases hs : dataGet data "surname" <;>
      cases hc : dataGet data "city" <;> simp [applyUpdate, hn, hs, hp, hc]
  · intro hc
    cases hn : dataGet data "name" <;> cases hs : dataGet data "surname" <;>
      cases hp : dataGet data "position" <;> simp [applyUpdate, hn, hs, hp, hc]
  · intro s hn
    cases hs : dataGet data "surname" <;> cases hp : dataGet data "position" <;>
      cases hc : dataGet data "city" <;> simp [applyUpdate, hn, hs, hp, hc, strOf?]
  · intro s hs
    cases hn : dataGet data "name" <;> cases hp : dataGet data "position" <;>
      cases hc : dataGet data "city" <;> simp [applyUpdate, hn, hs, hp, hc, strOf?]
  · intro s hp
    cases hn : dataGet data "name" <;> cases hs : dataGet data "surname" <;>
      cases hc : dataGet data "city" <;> simp [applyUpdate, hn, hs, hp, hc, strOf?]
  · intro s hc
    cases hn : dataGet data "name" <;> cases hs : dataGet data "surname" <;>
      cases hp : dataGet data "position" <;> simp [applyUpdate, hn, hs, hp, hc, strOf?]

/-- Witness for C3: updating the stored employee with only `{city: "X"}`
changes `city` to `"X"` and leaves `name`, `surname`, `position` unchanged. -/
theorem update_applies_exactly_present_fields_witness :
    ((update_employee stW 1 cityXP).1 = .updatedOk 1 ∧
      get_employee (update_employee stW 1 cityXP).2 1
        = .empRecord (applyUpdate empW cityXP)) ∧
    applyUpdate empW cityXP =
      { id := 1, name := "Ann", surname := "Lee", position := "Engineer",
        city := some "X" } := by
  have h := update_applies_exactly_present_fields stW 1 cityXP empW (by decide)
    (by decide)
  exact ⟨⟨h.1, h.2.1⟩, by decide⟩

/-- Claim C7, counterexample: The claim says any payload with a numeric
`position` fails with `InvalidFieldTypes` containing `"position"`; but the
required-field check uses Python truthiness (`not data.get(field)`), so the
numeric value `0` is classified as *missing* and the payload fails with
`MissingFields` instead. -/
theorem create_position_zero_reports_missing :
    (create_employee st0 posZeroP).1
      = .validationError (.missingRequired ["position"]) ∧
    ¬ ∃ wt, (create_employee st0 posZeroP).1
      = .validationError (.invalidFieldTypes wt) ∧ "position" ∈ wt := by
  refine ⟨by decide, ?_⟩
  rintro ⟨wt, h, -⟩
  have h0 : (create_employee st0 posZeroP).1
      = .validationError (.missingRequired ["position"]) := by decide
  rw [h0] at h
  simp at h

/-- Claim C7, amended: If `name` and `surname` pass the truthiness check and
`position` is a *nonzero* number, creation fails with `InvalidFieldTypes`
whose offending-field list contains `"position"`, and the store is left
unchanged.  (With `position = 0` the payload instead fails the
required-field check, as the counterexample shows.) -/
theorem create_nonzero_numeric_position_is_type_error
    (st : EmployeeStore) (data : Payload) (n : Int)
    (hname : pyFalsy (dataGet data "name") = false)
    (hsurname : pyFalsy (dataGet data "surname") = false)
    (hpos : dataGet data "position" = some (.jnum n))
    (hn : n ≠ 0) :
    ∃ wt, create_employee st data = (.validationError (.invalidFieldTypes wt), st) ∧
      "position" ∈ wt := by
  have hposf : pyFalsy (dataGet data "position") = false := by
    rw [hpos]
    simp [pyFalsy, pyTruthy, hn]
  have hmiss : required_fields.filter (fun f => pyFalsy (dataGet data f)) = [] := by
    simp [required_fields, List.filter_cons, hname, hsurname, hposf]
  have hwt : "position" ∈ employee_fields.filter
      (fun f => (dataGet data f).isSome && !optIsStr (dataGet data f)) := by
    apply List.mem_filter_of_mem
    · simp [employee_fields]
    · rw [hpos]; rfl
  have hne : employee_fields.filter
      (fun f => (dataGet data f).isSome && !optIsStr (dataGet data f)) ≠ [] :=
    List.ne_nil_of_mem hwt
  refine ⟨_, ?_, hwt⟩
  simp [create_employee, validate_employee_data, hmiss, hne]

/-- Witness for C7's amended theorem: `position = 5` on an otherwise valid
payload is rejected as a type error naming `position`. -/
theorem create_nonzero_numeric_position_is_type_error_witness :
    ∃ wt, create_employee st0 posFiveP
        = (.validationError (.invalidFieldTypes wt), st0) ∧ "position" ∈ wt :=
  create_nonzero_numeric_position_is_type_error st0 posFiveP 5
    (by decide) (by decide) (by decide) (by decide)

/-- Claim C8, counterexample: The claim says a required field present with an
empty value makes update validation fail with `EmptyRequiredFields` carrying
its name; but the type check runs first, so `{name: "", city: 5}` fails with
`InvalidFieldTypes ["city"]` and the empty `name` is never reported. -/
theorem update_empty_required_masked_by_type_error :
    validate_employee_update_data emptyNameBadCityP
      = some (.invalidFieldTypes ["city"]) ∧
    ∀ l, validate_employee_update_data emptyNameBadCityP
      ≠ some (.emptyRequired l) := by
  refine ⟨by decide, ?_⟩
  intro l h
  have h0 : validate_employee_update_data emptyNameBadCityP
      = some (.invalidFieldTypes ["city"]) := by decide
  rw [h0] at h
  simp at h

/-- Claim C8, amended: For update payloads whose present employee fields are
all strings: a required field that is omitted (or present non-empty) is not
an error, while a required field present with the empty string makes
validation fail with `EmptyRequiredFields` carrying that field's name. -/
theorem update_validation_empty_vs_omitted (data : Payload)
    (htypes : ∀ f ∈ data.map Prod.fst, employee_fields.contains f = true →
        optIsStr (dataGet data f) = true) :
    ((∀ f ∈ required_fields,
        pyFalsy (dataGet data f) = false ∨ dataGet data f = none) →
      validate_employee_update_data data = none) ∧
    (∀ f ∈ required_fields, dataGet data f = some (.jstr "") →
      ∃ l, validate_employee_update_data data = some (.emptyRequired l) ∧ f ∈ l) := by
  have hwt : (data.map Prod.fst).filter
      (fun f => employee_fields.contains f && !optIsStr (dataGet data f)) = [] := by
    rw [List.filter_eq_nil_iff]
    intro f hf
    by_cases hef : employee_fields.contains f = true
    · have := htypes f hf hef
      simp [hef, this]
    · rw [eq_false_of_ne_true hef]
      simp
  constructor
  · intro hreq
    have her : required_fields.filter
        (fun f => (data.map Prod.fst).contains f && pyFalsy (dataGet data f)) = [] := by
      rw [List.filter_eq_nil_iff]
      intro f hf
      rcases hreq f hf with hfalsy | habs
      · simp [hfalsy]
      · by_cases hk : (data.map Prod.fst).contains f = true
        · obtain ⟨v, hv⟩ := dataGet_isSome_of_mem_keys data f (by simpa using hk)
          rw [habs] at hv
          simp at hv
        · rw [eq_false_of_ne_true hk]
          simp
    simp only [validate_employee_update_data]
    rw [if_pos hwt, if_pos her]
  · intro f hf hv
    have hkey : f ∈ data.map Prod.fst := mem_keys_of_dataGet_some data f _ hv
    have hpred : ((data.map Prod.fst).contains f && pyFalsy (dataGet data f)) = true := by
      rw [hv]
      simp [pyFalsy, pyTruthy]
      simpa using hkey
    have hmem : f ∈ required_fields.filter
        (fun f => (data.map Prod.fst).contains f && pyFalsy (dataGet data f)) :=
      List.mem_filter_of_mem hf hpred
    have hne := List.ne_nil_of_mem hmem
    refine ⟨_, ?_, hmem⟩
    simp only [validate_employee_update_data]
    rw [if_pos hwt, if_neg hne]

/-- Witness for C8's amended theorem: `{city: "X"}` (required fields all
omitted) validates, while `{surname: ""}` fails with `EmptyRequiredFields`
carrying `"surname"`. -/
theorem update_validation_empty_vs_omitted_witness :
    validate_employee_update_data [("city", JsonVal.jstr "X")] = none ∧
    ∃ l, validate_employee_update_data [("surname", JsonVal.jstr "")]
        = some (.emptyRequired l) ∧ "surname" ∈ l := by
  constructor
  · exact (update_validation_empty_vs_omitted [("city", .jstr "X")]
      (by decide)).1 (by decide)
  · exact (update_validation_empty_vs_omitted [("surname", .jstr "")]
      (by decide)).2 "surname" (by decide) (by decide)

/-- Claim C4: `login` fails identically for a nonexistent username and for an
existing username with a non-matching password: literally the same response
value (`"Invalid credentials"`) and the same 401 status, regardless of the
request times — no information distinguishes the two failures. -/
theorem login_failure_uniformity (H : HashOracle) (key : String)
    (st : UserStore) (d1 d2 : Payload) (now1 now2 : Nat) (u : UserRec)
    (h1 : userLookup st d1 = none)
    (h2 : userLookup st d2 = some u)
    (h3 : H.chk u.password_hash (dataGet d2 "password") = false) :
    login H key now1 st d1 = login H key now2 st d2 ∧
    login H key now1 st d1 = .loginUnauthorized "Invalid credentials" ∧
    (login H key now1 st d1).status = 401 := by
  simp [login, h1, h2, h3, Resp.status]

/-- Witness for C4: a nonexistent user and a wrong password produce the very
same unauthorized response. -/
theorem login_failure_uniformity_witness :
    login hashNo "k" 0 ustW ghostD = login hashNo "k" 5 ustW adminD ∧
    login hashNo "k" 0 ustW ghostD = .loginUnauthorized "Invalid credentials" := by
  have h := login_failure_uniformity hashNo "k" ustW ghostD adminD 0 5
    { id := 1, username := .jstr "admin", password_hash := "h" }
    (by decide) (by decide) rfl
  exact ⟨h.1, h.2.1⟩

/-- Claim C5: `register` fails with 400 when username or password is
missing/empty, fails with the distinct duplicate-username error (the
`Conflict` outcome, surfaced with status 400 by this route) when the
username exists, and otherwise stores a user whose only password-derived
datum is the salted hash, answering with a constant success message;
username uniqueness is preserved by every call. -/
theorem register_checks_and_uniqueness (H : HashOracle) (salt : Nat)
    (st : UserStore) (data : Payload) :
    ((pyFalsy (dataGet data "username") || pyFalsy (dataGet data "password")) = true →
      register H salt st data
        = (.authBadRequest "Username and password are required", st)) ∧
    ((pyFalsy (dataGet data "username") || pyFalsy (dataGet data "password")) = false →
      st.rows.any (fun u => decide (u.username = (dataGet data "username").getD .jnull)) = true →
      register H salt st data = (.authBadRequest "Username already exists", st)) ∧
    ((pyFalsy (dataGet data "username") || pyFalsy (dataGet data "password")) = false →
      st.rows.any (fun u => decide (u.username = (dataGet data "username").getD .jnull)) = false →
      register H salt st data = (.registered,
        { rows := st.rows ++
            [{ id := st.nextId
               username := (dataGet data "username").getD .jnull
               password_hash := H.gen salt ((dataGet data "password").getD .jnull) }]
          nextId := st.nextId + 1 })) ∧
    ((st.rows.map (fun u => u.username)).Nodup →
      ((register H salt st data).2.rows.map (fun u => u.username)).Nodup) := by
  refine ⟨?_, ?_, ?_, ?_⟩
  · intro h
    simp [register, h]
  · intro h hdup
    simp [register, h, hdup]
  · intro h hfresh
    simp [register, h, hfresh]
  · intro hnd
    by_cases h : (pyFalsy (dataGet data "username") || pyFalsy (dataGet data "password")) = true
    · simp [register, h, hnd]
    · have h' := eq_false_of_ne_true h
      by_cases hdup : st.rows.any
          (fun u => decide (u.username = (dataGet data "username").getD .jnull)) = true
      · simp [register, h', hdup, hnd]
      · have hdup' := eq_false_of_ne_true hdup
        have hrows : (register H salt st data).2.rows = st.rows ++
            [{ id := st.nextId
               username := (dataGet data "username").getD .jnull
               password_hash := H.gen salt ((dataGet data "password").getD .jnull) }] := by
          simp [register, h', hdup']
        rw [hrows, List.map_append, List.nodup_append]
        refine ⟨hnd, by simp, ?_⟩
        intro a ha hb
        simp only [List.map_cons, List.map_nil, List.mem_singleton] at hb
        obtain ⟨u, hu, hequ⟩ := List.mem_map.mp ha
        have hfu := List.any_eq_false.mp hdup' u hu
        apply hfu
        simp [hequ, hb]

/-- Witness for C5: missing credentials give 400, a duplicate username gives
the distinct duplicate error without touching the store, a fresh username is
stored as a salted hash, and uniqueness survives. -/
theorem register_checks_and_uniqueness_witness :
    register hashNo 0 ustW [] = (.authBadRequest "Username and password are required", ustW) ∧
    register hashNo 0 ustW adminD = (.authBadRequest "Username already exists", ustW) ∧
    register hashNo 0 ustW ghostD = (.registered,
      { rows := ustW.rows ++ [{ id := 2, username := .jstr "ghost", password_hash := "h" }]
        nextId := 3 }) ∧
    ((register hashNo 0 ustW ghostD).2.rows.map (fun u => u.username)).Nodup := by
  refine ⟨?_, ?_, ?_, ?_⟩
  · exact (register_checks_and_uniqueness hashNo 0 ustW []).1 (by decide)
  · exact (register_checks_and_uniqueness hashNo 0 ustW adminD).2.1 (by decide) (by decide)
  · have h := (register_checks_and_uniqueness hashNo 0 ustW ghostD).2.2.1 (by decide) (by decide)
    rw [h]
    decide
  · exact (register_checks_and_uniqueness hashNo 0 ustW ghostD).2.2.2 (by decide)

/-- Supporting result for C2 (the *intended* wrapper logic): a token issued
by `login` carries the authenticated user's id and expiry `now + 2 hours`;
the wrapper body of `require_auth` answers 401 with message
`"Missing or invalid token"` when the Authorization header does not start
with `"Bearer "`, 401 `"Invalid token"` when the token's signing key is
wrong, 401 `"Token expired"` when the key is right but the expiry has
passed — three distinct texts, one status — and lets a valid unexpired
token through with its embedded user id.  In the source this body is
unreachable: see `require_auth_application_raises_name_error`. -/
theorem auth_token_lifecycle (H : HashOracle) (key : String) (now : Nat)
    (st : UserStore) (data : Payload) (v : JsonVal) (user : UserRec)
    (deser : String → Token) (tok : Token)
    (hu : dataGet data "username" = some v)
    (hfind : st.rows.find? (fun u => decide (u.username = v)) = some user)
    (hchk : H.chk user.password_hash (dataGet data "password") = true) :
    login H key now st data
      = .loginToken { user_id := user.id, exp := now + 2 * 3600, key := key } ∧
    (∀ a t, strStartsWith a "Bearer " = false →
      require_auth deser key t a = .authErr 401 "Missing or invalid token") ∧
    (∀ a t, strStartsWith a "Bearer " = true →
      deser ((pySplit a ' ').getD 1 "") = tok → tok.key ≠ key →
      require_auth deser key t a = .authErr 401 "Invalid token") ∧
    (∀ a t, strStartsWith a "Bearer " = true →
      deser ((pySplit a ' ').getD 1 "") = tok → tok.key = key → tok.exp ≤ t →
      require_auth deser key t a = .authErr 401 "Token expired") ∧
    (∀ a t, strStartsWith a "Bearer " = true →
      deser ((pySplit a ' ').getD 1 "") = tok → tok.key = key → t < tok.exp →
      require_auth deser key t a = .proceed tok.user_id) ∧
    ((AuthResult.authErr 401 "Missing or invalid token"
        ≠ .authErr 401 "Token expired") ∧
      (AuthResult.authErr 401 "Missing or invalid token"
        ≠ .authErr 401 "Invalid token") ∧
      (AuthResult.authErr 401 "Token expired" ≠ .authErr 401 "Invalid token")) := by
  refine ⟨?_, ?_, ?_, ?_, ?_, by decide⟩
  · simp [login, userLookup, hu, hfind, hchk]
  · intro a t h
    simp [require_auth, h]
  · intro a t h hd hk
    simp only [require_auth, h, if_true]
    rw [hd]
    simp [jwtDecode, hk]
  · intro a t h hd hk hexp
    simp only [require_auth, h, if_true]
    rw [hd]
    simp [jwtDecode, hk, hexp]
  · intro a t h hd hk hexp
    simp only [require_auth, h, if_true]
    rw [hd]
    simp [jwtDecode, hk, Nat.not_le.mpr hexp]

/-- Concrete instance of `auth_token_lifecycle`: a real login issues the
expected token; the empty
header, a token signed with the wrong key, the same token after its expiry
instant, and the same token before expiry each behave as claimed. -/
theorem auth_token_lifecycle_witness :
    login hashYes "k" 0 ustW adminD = .loginToken tokW ∧
    require_auth deserW "k" 0 "" = .authErr 401 "Missing or invalid token" ∧
    require_auth deserB "k" 0 "Bearer t" = .authErr 401 "Invalid token" ∧
    require_auth deserW "k" 7200 "Bearer t" = .authErr 401 "Token expired" ∧
    require_auth deserW "k" 0 "Bearer t" = .proceed 1 := by
  have h1 := auth_token_lifecycle hashYes "k" 0 ustW adminD (.jstr "admin")
    { id := 1, username := .jstr "admin", password_hash := "h" } deserW tokW
    (by decide) (by decide) rfl
  have h2 := auth_token_lifecycle hashYes "k" 0 ustW adminD (.jstr "admin")
    { id := 1, username := .jstr "admin", password_hash := "h" } deserB tokB
    (by decide) (by decide) rfl
  refine ⟨h1.1, h1.2.1 "" 0 (by decide), ?_, ?_, ?_⟩
  · exact h2.2.2.1 "Bearer t" 0 (by decide) rfl (by decide)
  · exact h1.2.2.2.1 "Bearer t" 7200 (by decide) rfl rfl (by decide)
  · exact h1.2.2.2.2.1 "Bearer t" 0 (by decide) rfl rfl (by decide)

/-- Claim C2: the claim describes the authenticate behavior (401 for a
missing/malformed header, an invalid signature, or an expired token, with
distinct texts but one status; success before expiry) and is the evident
intent, but the code has a slip that makes all of it unreachable:
`app.py` never imports `wraps` (`from functools import wraps` is absent),
so applying the decorator — `@require_auth` on `create_employee`,
app.py line 181 — evaluates `@wraps(f)` (line 163) against a module
namespace that does not bind `wraps` and raises `NameError` while the
module is being imported: the service never starts and no request reaches
`require_auth`'s wrapper.  Had `wraps` been bound, the decoration would
produce exactly the wrapper whose behavior `auth_token_lifecycle` proves. -/
theorem require_auth_application_raises_name_error :
    (∀ (deser : String → Token) (key : String),
      apply_require_auth app_module_globals deser key
        = .error (.nameError "wraps")) ∧
    "wraps" ∉ app_module_globals ∧
    (∀ (deser : String → Token) (key : String),
      apply_require_auth ("wraps" :: app_module_globals) deser key
        = .ok (fun now auth => require_auth deser key now auth)) := by
  refine ⟨fun deser key => rfl, by decide, fun deser key => rfl⟩

/-- On any 4xx outcome, `create_employee` has not touched the table. -/
theorem create_employee_4xx (st : EmployeeStore) (data : Payload)
    (h4 : 400 ≤ (create_employee st data).1.status)
    (h5 : (create_employee st data).1.status < 500) :
    (create_employee st data).2 = st := by
  by_cases hm : required_fields.filter (fun f => pyFalsy (dataGet data f)) = []
  · cases hv : validate_employee_data data with
    | some e => simp [create_employee, hm, hv]
    | none =>
      by_cases hc : ((dataGet data "city").bind strOf?) = (none : Option String)
      · simp [create_employee, hm, hv, hc]
      · exfalso
        have hcr : (create_employee st data).1 = .createdEmp st.nextId := by
          simp [create_employee, hm, hv, hc]
        rw [hcr] at h4
        simp [Resp.status] at h4
  · simp [create_employee, hm]

/-- On any 4xx outcome, `update_employee` has not touched the table. -/
theorem update_employee_4xx (st : EmployeeStore) (id : Nat) (data : Payload)
    (h4 : 400 ≤ (update_employee st id data).1.status) :
    (update_employee st id data).2 = st := by
  cases hf : findEmp st id with
  | none => simp [update_employee, hf]
  | some e =>
    cases hv : validate_employee_update_data data with
    | some err => simp [update_employee, hf, hv]
    | none =>
      exfalso
      have hu : (update_employee st id data).1 = .updatedOk id := by
        simp [update_employee, hf, hv]
      rw [hu] at h4
      simp [Resp.status] at h4

/-- On any 4xx outcome, `delete_employee` has not touched the table. -/
theorem delete_employee_4xx (st : EmployeeStore) (id : Nat)
    (h4 : 400 ≤ (delete_employee st id).1.status) :
    (delete_employee st id).2 = st := by
  cases hf : findEmp st id with
  | none => simp [delete_employee, hf]
  | some e =>
    exfalso
    have hdel : (delete_employee st id).1 = .deletedOk := by
      simp [delete_employee, hf]
    rw [hdel] at h4
    simp [Resp.status] at h4

/-- On any 4xx outcome, `register` has not touched the table. -/
theorem register_4xx (H : HashOracle) (salt : Nat) (st : UserStore)
    (data : Payload)
    (h4 : 400 ≤ (register H salt st data).1.status) :
    (register H salt st data).2 = st := by
  by_cases hm : (pyFalsy (dataGet data "username") || pyFalsy (dataGet data "password")) = true
  · simp [register, hm]
  · have hm' := eq_false_of_ne_true hm
    by_cases hd : st.rows.any
        (fun u => decide (u.username = (dataGet data "username").getD .jnull)) = true
    · simp [register, hm', hd]
    · have hd' := eq_false_of_ne_true hd
      exfalso
      have hr : (register H salt st data).1 = .registered := by
        simp [register, hm', hd']
      rw [hr] at h4
      simp [Resp.status] at h4

/-- Claim C10: Every request that ends in a 4xx error response — validation
failure on create or update, NotFound, duplicate username, missing
credentials, failed login — leaves the whole application state (both the
Employee and the User relation) exactly as it was: every handler detects
its errors and returns before any store mutation. -/
theorem error_responses_do_not_mutate_state (H : HashOracle) (key : String)
    (st : AppState) (r : Req)
    (h4 : 400 ≤ (step H key st r).1.status)
    (h5 : (step H key st r).1.status < 500) :
    (step H key st r).2 = st := by
  cases r with
  | createE data =>
    cases hp : create_employee st.emp data with
    | mk resp est =>
      have hs : step H key st (.createE data) = (resp, { st with emp := est }) := by
        simp [step, hp]
      rw [hs] at h4 h5 ⊢
      have h2 := create_employee_4xx st.emp data (by rw [hp]; exact h4)
        (by rw [hp]; exact h5)
      rw [hp] at h2
      rw [show est = st.emp from h2]
  | updateE id data =>
    cases hp : update_employee st.emp id data with
    | mk resp est =>
      have hs : step H key st (.updateE id data) = (resp, { st with emp := est }) := by
        simp [step, hp]
      rw [hs] at h4 ⊢
      have h2 := update_employee_4xx st.emp id data (by rw [hp]; exact h4)
      rw [hp] at h2
      rw [show est = st.emp from h2]
  | deleteE id =>
    cases hp : delete_employee st.emp id with
    | mk resp est =>
      have hs : step H key st (.deleteE id) = (resp, { st with emp := est }) := by
        simp [step, hp]
      rw [hs] at h4 ⊢
      have h2 := delete_employee_4xx st.emp id (by rw [hp]; exact h4)
      rw [hp] at h2
      rw [show est = st.emp from h2]
  | getE id => rfl
  | getByName n => rfl
  | listE => rfl
  | registerU salt data =>
    cases hp : register H salt st.users data with
    | mk resp ust =>
      have hs : step H key st (.registerU salt data) = (resp, { st with users := ust }) := by
        simp [step, hp]
      rw [hs] at h4 ⊢
      have h2 := register_4xx H salt st.users data (by rw [hp]; exact h4)
      rw [hp] at h2
      rw [show ust = st.users from h2]
  | loginU now data => rfl

/-- Witness for C10: a create with an empty body is a 400 validation error
and the application state is unchanged. -/
theorem error_responses_do_not_mutate_state_witness :
    (step hashNo "k" app0 (.createE [])).2 = app0 ∧
    400 ≤ (step hashNo "k" app0 (.createE [])).1.status :=
  ⟨error_responses_do_not_mutate_state hashNo "k" app0 (.createE [])
      (by decide) (by decide),
    by decide⟩

/-- The handler `create_employee` either leaves the table alone or appends one row
whose id is the autoincrement counter, bumping the counter. -/
theorem create_employee_snd (st : EmployeeStore) (data : Payload) :
    (create_employee st data).2 = st ∨
    ∃ ne : Employee, ne.id = st.nextId ∧
      (create_employee st data).2
        = { rows := st.rows ++ [ne], nextId := st.nextId + 1 } := by
  by_cases hm : required_fields.filter (fun f => pyFalsy (dataGet data f)) = []
  · cases hv : validate_employee_data data with
    | some e => left; simp [create_employee, hm, hv]
    | none =>
      by_cases hc : ((dataGet data "city").bind strOf?) = (none : Option String)
      · left; simp [create_employee, hm, hv, hc]
      · right
        exact ⟨{ id := st.nextId, name := strField data "name"
                 surname := strField data "surname"
                 position := strField data "position"
                 city := (dataGet data "city").bind strOf? },
               rfl, by simp [create_employee, hm, hv, hc]⟩
  · left
    simp [create_employee, hm]

/-- The handler `update_employee` either leaves the table alone or rewrites the rows in
place with the per-row update function. -/
theorem update_employee_snd (st : EmployeeStore) (id : Nat) (data : Payload) :
    (update_employee st id data).2 = st ∨
    (update_employee st id data).2
      = { st with
           rows := st.rows.map (fun e => if e.id == id then applyUpdate e data else e) } := by
  cases hf : findEmp st id with
  | none => left; simp [update_employee, hf]
  | some e =>
    cases hv : validate_employee_update_data data with
    | some err => left; simp [update_employee, hf, hv]
    | none => right; simp [update_employee, hf, hv]

/-- The handler `delete_employee` either leaves the table alone or filters out the rows
with the given id. -/
theorem delete_employee_snd (st : EmployeeStore) (id : Nat) :
    (delete_employee st id).2 = st ∨
    (delete_employee st id).2
      = { st with rows := st.rows.filter (fun e => !(e.id == id)) } := by
  cases hf : findEmp st id with
  | none => left; simp [delete_employee, hf]
  | some e => right; simp [delete_employee, hf]

/-- One step preserves the invariant "`id` is below the counter, absent from
the table, and all row ids are below the counter". -/
theorem step_preserves_absent (H : HashOracle) (key : String) (st : AppState)
    (r : Req) (id : Nat)
    (hb : ∀ e ∈ st.emp.rows, e.id < st.emp.nextId)
    (habs : ∀ e ∈ st.emp.rows, e.id ≠ id)
    (hlt : id < st.emp.nextId) :
    (∀ e ∈ (step H key st r).2.emp.rows, e.id < (step H key st r).2.emp.nextId) ∧
    (∀ e ∈ (step H key st r).2.emp.rows, e.id ≠ id) ∧
    id < (step H key st r).2.emp.nextId := by
  cases r with
  | createE data =>
    cases hp : create_employee st.emp data with
    | mk resp est =>
      have hst : (step H key st (.createE data)).2 = { st with emp := est } := by
        simp [step, hp]
      rw [hst]
      have hsnd := create_employee_snd st.emp data
      rw [hp] at hsnd
      rcases hsnd with hsame | ⟨ne, hne, happ⟩
      · simp only at hsame
        rw [show est = st.emp from hsame]
        exact ⟨hb, habs, hlt⟩
      · simp only at happ
        rw [show est = { rows := st.emp.rows ++ [ne], nextId := st.emp.nextId + 1 }
              from happ]
        dsimp only
        refine ⟨?_, ?_, by omega⟩
        · intro e he
          rcases List.mem_append.mp he with hold | hnew
          · have := hb e hold
            omega
          · rw [List.mem_singleton.mp hnew, hne]
            omega
        · intro e he
          rcases List.mem_append.mp he with hold | hnew
          · exact habs e hold
          · rw [List.mem_singleton.mp hnew, hne]
            omega
  | updateE uid data =>
    cases hp : update_employee st.emp uid data with
    | mk resp est =>
      have hst : (step H key st (.updateE uid data)).2 = { st with emp := est } := by
        simp [step, hp]
      rw [hst]
      have hsnd := update_employee_snd st.emp uid data
      rw [hp] at hsnd
      rcases hsnd with hsame | hmap
      · simp only at hsame
        rw [show est = st.emp from hsame]
        exact ⟨hb, habs, hlt⟩
      · simp only at hmap
        rw [show est = { st.emp with
              rows := st.emp.rows.map (fun e => if e.id == uid then applyUpdate e data else e) }
            from hmap]
        refine ⟨?_, ?_, hlt⟩
        · intro e he
          obtain ⟨a, ha, rfl⟩ := List.mem_map.mp he
          rw [updRow_id]
          exact hb a ha
        · intro e he
          obtain ⟨a, ha, rfl⟩ := List.mem_map.mp he
          rw [updRow_id]
          exact habs a ha
  | deleteE did =>
    cases hp : delete_employee st.emp did with
    | mk resp est =>
      have hst : (step H key st (.deleteE did)).2 = { st with emp := est } := by
        simp [step, hp]
      rw [hst]
      have hsnd := delete_employee_snd st.emp did
      rw [hp] at hsnd
      rcases hsnd with hsame | hfil
      · simp only at hsame
        rw [show est = st.emp from hsame]
        exact ⟨hb, habs, hlt⟩
      · simp only at hfil
        rw [show est = { st.emp with
              rows := st.emp.rows.filter (fun e => !(e.id == did)) } from hfil]
        exact ⟨fun e he => hb e (List.mem_of_mem_filter he),
               fun e he => habs e (List.mem_of_mem_filter he), hlt⟩
  | getE gid => exact ⟨hb, habs, hlt⟩
  | getByName n => exact ⟨hb, habs, hlt⟩
  | listE => exact ⟨hb, habs, hlt⟩
  | registerU salt data =>
    cases hp : register H salt st.users data with
    | mk resp ust =>
      have hst : (step H key st (.registerU salt data)).2 = { st with users := ust } := by
        simp [step, hp]
      rw [hst]
      exact ⟨hb, habs, hlt⟩
  | loginU now data => exact ⟨hb, habs, hlt⟩

/-- Running any request sequence keeps an absent id absent. -/
theorem runReqs_preserves_absent (H : HashOracle) (key : String) (id : Nat) :
    ∀ (ops : List Req) (st : AppState),
      ((∀ e ∈ st.emp.rows, e.id < st.emp.nextId) ∧
        (∀ e ∈ st.emp.rows, e.id ≠ id) ∧ id < st.emp.nextId) →
      ∀ e ∈ (runReqs H key st ops).emp.rows, e.id ≠ id := by
  intro ops
  induction ops with
  | nil =>
    intro st h
    simpa [runReqs] using h.2.1
  | cons r rs ih =>
    intro st h
    have hs := step_preserves_absent H key st r id h.1 h.2.1 h.2.2
    have hrun : runReqs H key st (r :: rs) = runReqs H key (step H key st r).2 rs := by
      simp [runReqs]
    rw [hrun]
    exact ih _ ⟨hs.1, hs.2.1, hs.2.2⟩

/-- Claim C6: Deleting an id with no record fails with NotFound and changes
nothing; after a successful delete, *every* later `get` of that id — across
any further sequence of requests — fails with NotFound: the record is gone
permanently (the autoincrement counter never re-issues the id). -/
theorem delete_then_get_not_found (H : HashOracle) (key : String)
    (st : AppState) (id : Nat)
    (hb : ∀ e ∈ st.emp.rows, e.id < st.emp.nextId) :
    (findEmp st.emp id = none → step H key st (.deleteE id) = (.notFoundEmp id, st)) ∧
    ((step H key st (.deleteE id)).1 = .deletedOk →
      ∀ ops : List Req,
        get_employee (runReqs H key (step H key st (.deleteE id)).2 ops).emp id
          = .notFoundEmp id) := by
  constructor
  · intro hf
    simp [step, delete_employee, hf]
  · intro hok ops
    cases hf : findEmp st.emp id with
    | none =>
      exfalso
      have : (step H key st (.deleteE id)).1 = .notFoundEmp id := by
        simp [step, delete_employee, hf]
      rw [this] at hok
      simp at hok
    | some e0 =>
      have hst : (step H key st (.deleteE id)).2
          = { st with emp := { st.emp with
                rows := st.emp.rows.filter (fun e => !(e.id == id)) } } := by
        simp [step, delete_employee, hf]
      have he0 : e0 ∈ st.emp.rows := List.mem_of_find?_eq_some hf
      have he0id : e0.id = id := by
        have := List.find?_some hf
        simpa using this
      have hlt : id < st.emp.nextId := he0id ▸ hb e0 he0
      have hb' : ∀ e ∈ (step H key st (.deleteE id)).2.emp.rows,
          e.id < (step H key st (.deleteE id)).2.emp.nextId := by
        rw [hst]
        intro e he
        exact hb e (List.mem_of_mem_filter he)
      have habs : ∀ e ∈ (step H key st (.deleteE id)).2.emp.rows, e.id ≠ id := by
        rw [hst]
        intro e he
        have := List.of_mem_filter he
        simpa using this
      have hlt' : id < (step H key st (.deleteE id)).2.emp.nextId := by
        rw [hst]
        exact hlt
      have habs' := runReqs_preserves_absent H key id ops
        (step H key st (.deleteE id)).2 ⟨hb', habs, hlt'⟩
      have hnone : findEmp (runReqs H key (step H key st (.deleteE id)).2 ops).emp id
          = none := by
        rw [findEmp, List.find?_eq_none]
        intro e he
        simp [habs' e he]
      simp [get_employee, hnone]

/-- Witness for C6: deleting the stored employee succeeds, and after a
further create/update/delete/register/list sequence, `get` of the deleted
id still answers NotFound. -/
theorem delete_then_get_not_found_witness :
    (step hashNo "k" appW (.deleteE 1)).1 = .deletedOk ∧
    get_employee (runReqs hashNo "k" (step hashNo "k" appW (.deleteE 1)).2 opsW).emp 1
      = .notFoundEmp 1 :=
  ⟨by decide,
    (delete_then_get_not_found hashNo "k" appW 1 (by decide)).2 (by decide) opsW⟩
